import Mathlib

/-
Verification of the Nuclide debugger adapter bridge.

Shallow embedding of the command-routing and session state machines of the
debugger subsystem:
  * CommandDispatcher          (pkg/nuclide-debugger/lib/CommandDispatcher.js)
  * ExpressionEvaluationManager and RemoteObjectManager
                               (pkg/nuclide-debugger/lib/main.js)
  * DebuggerHandler            (pkg/nuclide-debugger-php-rpc/lib/PhpDebuggerService.js)
  * DebuggerInstance           (modules/nuclide-debugger-common/DebuggerInstance.js)

Methods become pure functions over explicit state; observable effects
(adapter calls, reported errors, emitted events, thrown JS errors, log
output) are returned as explicit effect records or traces.
-/

namespace Nuclide

/-! ## CommandDispatcher (pkg/nuclide-debugger/lib/CommandDispatcher.js)

`send(...args)` forwards to `_sendViaNuclideChannel(...args)`, which switches
on `args[0]` (the command name).  The positional payload arguments are passed
through to the bridge adapter unexamined; the effect records below therefore
record which adapter method is invoked, not its payload. -/

namespace CommandDispatcher

/-- The bridge-adapter methods that `_sendViaNuclideChannel` /
`_triggerDebuggerAction` can invoke, one per `this._bridgeAdapter.<m>(...)`
call site. -/
inductive AdapterCall where
  | resume
  | pause
  | stepOver
  | stepInto
  | stepOut
  | runToLocation
  | setInitialBreakpoints
  | setFilelineBreakpoint
  | removeBreakpoint
  | updateBreakpoint
  | setSelectedCallFrameIndex
  | evaluateExpression
  | setVariable
  | completions
  | getProperties
  | selectThread
  | setPauseOnException
  | setPauseOnCaughtException
  | setSingleThreadStepping
  | setShowDisassembly
  deriving DecidableEq, Repr

/-- The observable effects of one `CommandDispatcher.send` call: the adapter
methods invoked, the errors reported through `reportError`, the JS `Error`
thrown (if any), and logger output.  The body of `send` assigns no instance
field (`_bridgeAdapter` / `_sessionSubscriptions` are only read), so the
dispatcher state after a `send` equals the state before it by construction
and is not threaded through. -/
structure SendResult where
  adapterCalls : List AdapterCall
  reportedErrors : List String
  thrown : Option String
  logs : List String
  deriving DecidableEq, Repr

/-- Effect record of a dispatch that only invokes one adapter method. -/
def callOnly (c : AdapterCall) : SendResult :=
  { adapterCalls := [c], reportedErrors := [], thrown := none, logs := [] }

/-- Effect record of a dispatch that does nothing observable. -/
def noEffects : SendResult :=
  { adapterCalls := [], reportedErrors := [], thrown := none, logs := [] }

/-- `CommandDispatcher._triggerDebuggerAction(actionId)`: switch on the
action id.  `debugger.toggle-pause` reports an error ("toggle-pause is not
implemented yet."); the step / run-snippet actions invoke the corresponding
adapter method; any other action id hits the `default` branch, which
`throw Error(...)`s naming the action id. -/
def triggerDebuggerAction (actionId : String) : SendResult :=
  if actionId = "debugger.toggle-pause" then
    { noEffects with reportedErrors := ["toggle-pause is not implemented yet."] }
  else if actionId = "debugger.step-over" then callOnly AdapterCall.stepOver
  else if actionId = "debugger.step-into" then callOnly AdapterCall.stepInto
  else if actionId = "debugger.step-out" then callOnly AdapterCall.stepOut
  else if actionId = "debugger.run-snippet" then callOnly AdapterCall.resume
  else
    { noEffects with
      thrown := some ("_triggerDebuggerAction: unrecognized actionId: " ++ actionId) }

/-- `CommandDispatcher._sendViaNuclideChannel(...args)`: if no bridge adapter
is bound (`this._bridgeAdapter == null`) it returns immediately; otherwise it
switches on the command name `args[0]`.  `adapterBound` stands for
`this._bridgeAdapter != null`; `actionId` is `args[1]` as consumed by the
`triggerDebuggerAction` case. -/
def sendViaNuclideChannel (adapterBound : Bool) (commandName : String)
    (actionId : String) : SendResult :=
  if adapterBound = false then noEffects
  else if commandName = "Continue" then callOnly AdapterCall.resume
  else if commandName = "Pause" then callOnly AdapterCall.pause
  else if commandName = "StepOver" then callOnly AdapterCall.stepOver
  else if commandName = "StepInto" then callOnly AdapterCall.stepInto
  else if commandName = "StepOut" then callOnly AdapterCall.stepOut
  else if commandName = "RunToLocation" then callOnly AdapterCall.runToLocation
  else if commandName = "triggerDebuggerAction" then triggerDebuggerAction actionId
  else if commandName = "SyncBreakpoints" then callOnly AdapterCall.setInitialBreakpoints
  else if commandName = "AddBreakpoint" then callOnly AdapterCall.setFilelineBreakpoint
  else if commandName = "DeleteBreakpoint" then callOnly AdapterCall.removeBreakpoint
  else if commandName = "UpdateBreakpoint" then callOnly AdapterCall.updateBreakpoint
  else if commandName = "setSelectedCallFrameIndex" then
    callOnly AdapterCall.setSelectedCallFrameIndex
  else if commandName = "evaluateOnSelectedCallFrame" then
    callOnly AdapterCall.evaluateExpression
  else if commandName = "runtimeEvaluate" then callOnly AdapterCall.evaluateExpression
  else if commandName = "setVariable" then callOnly AdapterCall.setVariable
  else if commandName = "completions" then callOnly AdapterCall.completions
  else if commandName = "getProperties" then callOnly AdapterCall.getProperties
  else if commandName = "selectThread" then callOnly AdapterCall.selectThread
  else if commandName = "setPauseOnException" then callOnly AdapterCall.setPauseOnException
  else if commandName = "setPauseOnCaughtException" then
    callOnly AdapterCall.setPauseOnCaughtException
  else if commandName = "setSingleThreadStepping" then
    callOnly AdapterCall.setSingleThreadStepping
  else if commandName = "setShowDisassembly" then callOnly AdapterCall.setShowDisassembly
  else
    { noEffects with
      reportedErrors := ["Command " ++ commandName ++ " is not implemented yet."] }

/-- `CommandDispatcher.send(...args)` forwards verbatim to
`_sendViaNuclideChannel(...args)`. -/
def send (adapterBound : Bool) (commandName : String) (actionId : String) :
    SendResult :=
  sendViaNuclideChannel adapterBound commandName actionId

/-- The command names recognized by the switch in `_sendViaNuclideChannel`. -/
def recognizedCommands : List String :=
  ["Continue", "Pause", "StepOver", "StepInto", "StepOut", "RunToLocation",
   "triggerDebuggerAction", "SyncBreakpoints", "AddBreakpoint",
   "DeleteBreakpoint", "UpdateBreakpoint", "setSelectedCallFrameIndex",
   "evaluateOnSelectedCallFrame", "runtimeEvaluate", "setVariable",
   "completions", "getProperties", "selectThread", "setPauseOnException",
   "setPauseOnCaughtException", "setSingleThreadStepping", "setShowDisassembly"]

/-- The action ids recognized by the switch in `_triggerDebuggerAction`. -/
def recognizedActionIds : List String :=
  ["debugger.toggle-pause", "debugger.step-over", "debugger.step-into",
   "debugger.step-out", "debugger.run-snippet"]

end CommandDispatcher

end Nuclide

namespace Nuclide

/-- Claim C6, counterexample: `send` with no adapter bound produces no log
output at all (it is a plain early return), contradicting the claim's "it
logs"; the remaining conjuncts (no throw, no adapter call) do hold at this
input. -/
theorem send_without_adapter_logs_nothing :
    (CommandDispatcher.send false "Continue" "").logs = [] ∧
    (CommandDispatcher.send false "Continue" "").thrown = none ∧
    (CommandDispatcher.send false "Continue" "").adapterCalls = [] := by
  refine ⟨rfl, rfl, rfl⟩

/-- Claim C6 (amended): `CommandDispatcher.send` invoked while no bridge
adapter is bound is a pure no-op for every command name and argument list:
it returns immediately without invoking any adapter method, reporting any
error, logging, or throwing, and dispatcher state is unchanged (the method
assigns no instance field). -/
theorem send_without_adapter_is_noop (commandName actionId : String) :
    CommandDispatcher.send false commandName actionId =
      CommandDispatcher.noEffects := by
  rfl

/-- Claim C7: dispatching an unknown top-level command name with a bound
adapter reports an error exactly once (the "not implemented yet" report),
does not throw, and invokes no adapter method; dispatcher state is unchanged
so the session remains connected. -/
theorem send_unknown_command_reports_once (commandName actionId : String)
    (h : commandName ∉ CommandDispatcher.recognizedCommands) :
    CommandDispatcher.send true commandName actionId =
      { CommandDispatcher.noEffects with
        reportedErrors :=
          ["Command " ++ commandName ++ " is not implemented yet."] } := by
  simp only [CommandDispatcher.recognizedCommands, List.mem_cons,
    List.not_mem_nil, or_false, not_or] at h
  obtain ⟨h1, h2, h3, h4, h5, h6, h7, h8, h9, h10, h11, h12, h13, h14, h15,
    h16, h17, h18, h19, h20, h21, h22⟩ := h
  simp [CommandDispatcher.send, CommandDispatcher.sendViaNuclideChannel,
    h1, h2, h3, h4, h5, h6, h7, h8, h9, h10, h11, h12, h13, h14, h15, h16,
    h17, h18, h19, h20, h21, h22]

/-- Witness for C7 at the spec's concrete input "FooBar". -/
theorem send_unknown_command_reports_once_witness :
    CommandDispatcher.send true "FooBar" "" =
      { CommandDispatcher.noEffects with
        reportedErrors := ["Command " ++ "FooBar" ++ " is not implemented yet."] } :=
  send_unknown_command_reports_once "FooBar" "" (by decide)

/-- Claim C8, counterexample: dispatching `triggerDebuggerAction` with the
unknown action id "FooAction" while an adapter is bound throws a JS `Error`
(the `default` branch of `_triggerDebuggerAction` is `throw Error(...)`),
contradicting the claim that the dispatcher reports the error without
throwing. -/
theorem trigger_unknown_action_throws :
    (CommandDispatcher.send true "triggerDebuggerAction" "FooAction").thrown =
      some "_triggerDebuggerAction: unrecognized actionId: FooAction" ∧
    (CommandDispatcher.send true "triggerDebuggerAction" "FooAction").reportedErrors
      = [] := by
  refine ⟨rfl, rfl⟩

/-- Claim C8 (amended): dispatching `triggerDebuggerAction` with an action id
outside the recognized set throws a JS `Error` naming the action id; no
adapter method is invoked and no error is reported through the reporting
sink. -/
theorem trigger_unknown_action_error (actionId : String)
    (h : actionId ∉ CommandDispatcher.recognizedActionIds) :
    CommandDispatcher.send true "triggerDebuggerAction" actionId =
      { CommandDispatcher.noEffects with
        thrown :=
          some ("_triggerDebuggerAction: unrecognized actionId: " ++ actionId) } := by
  simp only [CommandDispatcher.recognizedActionIds, List.mem_cons,
    List.not_mem_nil, or_false, not_or] at h
  obtain ⟨h1, h2, h3, h4, h5⟩ := h
  simp [CommandDispatcher.send, CommandDispatcher.sendViaNuclideChannel,
    CommandDispatcher.triggerDebuggerAction, h1, h2, h3, h4, h5]

/-- Witness for the amended C8 at the concrete action id "FooAction". -/
theorem trigger_unknown_action_error_witness :
    CommandDispatcher.send true "triggerDebuggerAction" "FooAction" =
      { CommandDispatcher.noEffects with
        thrown :=
          some ("_triggerDebuggerAction: unrecognized actionId: " ++ "FooAction") } :=
  trigger_unknown_action_error "FooAction" (by decide)

/-! ## ExpressionEvaluationManager and RemoteObjectManager
(pkg/nuclide-debugger/lib/main.js)

The manager converts debuggee evaluation responses into pseudo-IPC events on
`_evalutionEvent$` and registers remote object handles with the
`RemoteObjectManager`.  The transport outcome delivered to each callback
(`error` / `response`) is passed in as an explicit oracle argument. -/

/-- A Chrome-protocol remote object reference as read by the manager: the
only field the manager inspects is `objectId`; the remaining fields (type,
description, value, ...) are passed through to the emitted event unread. -/
structure RemoteObject where
  objectId : Option String
  deriving DecidableEq, Repr

/-- An `EvaluateOnCallFrameResponse` / `EvaluateResponse` as destructured by
the evaluation callbacks: `{result, wasThrown, exceptionDetails}`. -/
structure EvaluateOnCallFrameResponse where
  result : Option RemoteObject
  wasThrown : Bool
  exceptionDetails : Option String
  deriving DecidableEq, Repr

/-- A `PropertyDescriptor` as read by `_propertiesToExpansionResult`:
`{name, value}` with a possibly absent value. -/
structure PropertyDescriptor where
  name : String
  value : Option RemoteObject
  deriving DecidableEq, Repr

/-- `RemoteObjectManager`: `_remoteObjects` is a JS `Map` from object id to a
`RemoteObjectProxy`; the proxy is determined by its id, so the map is
represented by its key list in insertion order (`Map.set` on an existing key
replaces the value in place). -/
structure RemoteObjectManager where
  remoteObjects : List String
  deriving DecidableEq, Repr

/-- `RemoteObjectManager.addObject(objectId)`: `Map.set` keyed by the id. -/
def RemoteObjectManager.addObject (m : RemoteObjectManager) (objectId : String) :
    RemoteObjectManager :=
  if objectId ∈ m.remoteObjects then m
  else { remoteObjects := m.remoteObjects ++ [objectId] }

/-- `RemoteObjectManager.getRemoteObjectFromId(objectId)`: `Map.get`,
`undefined` (here `none`) when the id is not registered. -/
def RemoteObjectManager.getRemoteObjectFromId (m : RemoteObjectManager)
    (objectId : String) : Option String :=
  if objectId ∈ m.remoteObjects then some objectId else none

/-- `RemoteObjectManager.clear()`: `Map.clear`. -/
def RemoteObjectManager.clear (_m : RemoteObjectManager) : RemoteObjectManager :=
  { remoteObjects := [] }

/-- The pseudo-IPC events raised through `_raiseIPCEvent`. -/
inductive IPCEvent where
  | expressionEvaluationResponse (result : Option RemoteObject)
      (error : Option String) (expression : String) (id : Nat)
  | getPropertiesResponse (result : List (String × RemoteObject))
      (objectId : String) (id : Nat)
  | scopesUpdate
  deriving DecidableEq, Repr

/-- The observable outcome of one manager operation: the manager state after
it, the errors reported through `reportError` and `reportErrorFromConsole`
respectively, the pseudo-IPC events raised, and a thrown JS error if any. -/
structure EvalEffects where
  manager : RemoteObjectManager
  reportedErrors : List String
  consoleErrors : List String
  events : List IPCEvent
  thrown : Option String
  deriving DecidableEq, Repr

namespace ExpressionEvaluationManager

/-- `ExpressionEvaluationManager._propertiesToExpansionResult(properties)`:
filters out descriptors without a value, registers every `value.objectId`
with the RemoteObjectManager, and produces the expansion-result list. -/
def propertiesToExpansionResult (m : RemoteObjectManager)
    (props : List PropertyDescriptor) :
    RemoteObjectManager × List (String × RemoteObject) :=
  match props with
  | [] => (m, [])
  | p :: rest =>
      match p.value with
      | none => propertiesToExpansionResult m rest
      | some v =>
          let m2 := match v.objectId with
            | some oid => m.addObject oid
            | none => m
          let r := propertiesToExpansionResult m2 rest
          (r.1, (p.name, v) :: r.2)

/-- `ExpressionEvaluationManager.evaluateOnCallFrame(transactionId,
callFrameId, expression, objectGroup)`, as the effects of its transport
callback once the round trip completes with outcome
(`transportError`, `response`).  On a transport error the message is reported
to the console sink when `objectGroup === 'console'` and to the general sink
otherwise, and no event is emitted.  Otherwise `result.objectId` (when
present) is registered before the `ExpressionEvaluationResponse` event is
emitted; the event's `error` field is `exceptionDetails` when `wasThrown` and
`null` otherwise. -/
def evaluateOnCallFrame (m : RemoteObjectManager) (transactionId : Nat)
    (expression : String) (objectGroup : String)
    (transportError : Option String) (response : EvaluateOnCallFrameResponse) :
    EvalEffects :=
  match transportError with
  | some e =>
      let msg := "evaluateOnCallFrame failed with " ++ e
      if objectGroup = "console" then
        { manager := m, reportedErrors := [], consoleErrors := [msg],
          events := [], thrown := none }
      else
        { manager := m, reportedErrors := [msg], consoleErrors := [],
          events := [], thrown := none }
  | none =>
      let m2 := match response.result with
        | some r =>
            match r.objectId with
            | some oid => m.addObject oid
            | none => m
        | none => m
      { manager := m2, reportedErrors := [], consoleErrors := [],
        events := [IPCEvent.expressionEvaluationResponse response.result
          (if response.wasThrown then response.exceptionDetails else none)
          expression transactionId],
        thrown := none }

/-- `ExpressionEvaluationManager.getProperties(id, objectId)`: looks the id
up in the RemoteObjectManager; when unknown it reports an error and returns.
When known, the proxy's round trip completes with (`transportError`,
`response`); a transport error is reported (and the promise rejected) without
an event, otherwise the expansion result is computed (registering nested
object ids) and a `GetPropertiesResponse` event is emitted. -/
def getProperties (m : RemoteObjectManager) (id : Nat) (objectId : String)
    (transportError : Option String) (response : List PropertyDescriptor) :
    EvalEffects :=
  match m.getRemoteObjectFromId objectId with
  | none =>
      { manager := m,
        reportedErrors :=
          ["Cannot find object id " ++ objectId ++ " for getProperties()"],
        consoleErrors := [], events := [], thrown := none }
  | some _ =>
      match transportError with
      | some e =>
          { manager := m,
            reportedErrors := ["getProperties failed with " ++ e],
            consoleErrors := [], events := [], thrown := none }
      | none =>
          let pr := propertiesToExpansionResult m response
          { manager := pr.1, reportedErrors := [], consoleErrors := [],
            events := [IPCEvent.getPropertiesResponse pr.2 objectId id],
            thrown := none }

/-- `ExpressionEvaluationManager.clearPauseStates()`: invalidates all
registered remote objects. -/
def clearPauseStates (m : RemoteObjectManager) : RemoteObjectManager :=
  m.clear

end ExpressionEvaluationManager

/-- Membership in the manager after `addObject`. -/
theorem mem_addObject (m : RemoteObjectManager) (oid x : String) :
    x ∈ (m.addObject oid).remoteObjects ↔
      x ∈ m.remoteObjects ∨ x = oid := by
  unfold RemoteObjectManager.addObject
  by_cases h : oid ∈ m.remoteObjects
  · simp only [h, if_true]
    constructor
    · exact fun hx => Or.inl hx
    · rintro (hx | rfl)
      · exact hx
      · exact h
  · simp [h, List.mem_append]

/-- Claim C4: for every object id registered before a resume, a
`getProperties(id, objectId)` issued after `clearPauseStates()` has run fails
gracefully: it reports the not-found error, emits no `GetPropertiesResponse`
event, does not throw, and leaves the (cleared) manager unchanged, so no
stale data can be returned for the cleared id. -/
theorem getProperties_after_clear_fails_gracefully
    (m : RemoteObjectManager) (id : Nat) (objectId : String)
    (transportError : Option String) (response : List PropertyDescriptor)
    (h : objectId ∈ m.remoteObjects) :
    ExpressionEvaluationManager.getProperties
        (ExpressionEvaluationManager.clearPauseStates m) id objectId
        transportError response =
      { manager := ExpressionEvaluationManager.clearPauseStates m,
        reportedErrors :=
          ["Cannot find object id " ++ objectId ++ " for getProperties()"],
        consoleErrors := [], events := [], thrown := none } := by
  simp [ExpressionEvaluationManager.getProperties,
    ExpressionEvaluationManager.clearPauseStates,
    RemoteObjectManager.clear, RemoteObjectManager.getRemoteObjectFromId]

/-- Witness for C4: the id "obj1" registered before the resume, queried after
`clearPauseStates`. -/
theorem getProperties_after_clear_fails_gracefully_witness :
    ExpressionEvaluationManager.getProperties
        (ExpressionEvaluationManager.clearPauseStates ⟨["obj1"]⟩) 7 "obj1"
        none [] =
      { manager := ExpressionEvaluationManager.clearPauseStates ⟨["obj1"]⟩,
        reportedErrors :=
          ["Cannot find object id " ++ "obj1" ++ " for getProperties()"],
        consoleErrors := [], events := [], thrown := none } :=
  getProperties_after_clear_fails_gracefully ⟨["obj1"]⟩ 7 "obj1" none []
    (by decide)

/-- Claim C5, counterexample: a thrown-exception `evaluateOnCallFrame`
response whose `result` carries an object id does register that object with
the RemoteObjectManager (registration is unconditional on `wasThrown`),
contradicting the claim's "no object is registered for that response"; the
error field of the emitted event does carry the exception details. -/
theorem evaluateOnCallFrame_thrown_registers_object :
    "obj1" ∈ (ExpressionEvaluationManager.evaluateOnCallFrame ⟨[]⟩ 1 "x+1"
        "debugger" none ⟨some ⟨some "obj1"⟩, true, some "TypeError"⟩
      ).manager.remoteObjects ∧
    (ExpressionEvaluationManager.evaluateOnCallFrame ⟨[]⟩ 1 "x+1" "debugger"
        none ⟨some ⟨some "obj1"⟩, true, some "TypeError"⟩).events =
      [IPCEvent.expressionEvaluationResponse (some ⟨some "obj1"⟩)
        (some "TypeError") "x+1" 1] := by
  refine ⟨by decide, rfl⟩

/-- Claim C5 (amended): for every `evaluateOnCallFrame` response in which the
evaluation threw (`wasThrown` true), the emitted
`ExpressionEvaluationResponse` event carries the exception details in its
`error` field (not a transport-level failure, which would emit no event), and
an object is registered with the RemoteObjectManager exactly when the
response's `result` carries an `objectId` — registration is not suppressed by
`wasThrown`. -/
theorem evaluateOnCallFrame_thrown_surfaces_error
    (m : RemoteObjectManager) (transactionId : Nat)
    (expression objectGroup : String) (response : EvaluateOnCallFrameResponse)
    (h : response.wasThrown = true) :
    (ExpressionEvaluationManager.evaluateOnCallFrame m transactionId
        expression objectGroup none response).events =
      [IPCEvent.expressionEvaluationResponse response.result
        response.exceptionDetails expression transactionId] ∧
    (ExpressionEvaluationManager.evaluateOnCallFrame m transactionId
        expression objectGroup none response).thrown = none ∧
    ∀ x, x ∈ (ExpressionEvaluationManager.evaluateOnCallFrame m transactionId
          expression objectGroup none response).manager.remoteObjects ↔
        (x ∈ m.remoteObjects ∨
          ∃ r, response.result = some r ∧ r.objectId = some x) := by
  refine ⟨by simp [ExpressionEvaluationManager.evaluateOnCallFrame, h],
    by simp [ExpressionEvaluationManager.evaluateOnCallFrame], ?_⟩
  intro x
  unfold ExpressionEvaluationManager.evaluateOnCallFrame
  cases hr : response.result with
  | none => simp [hr]
  | some r =>
      cases ho : r.objectId with
      | none =>
          simp only [hr, ho]
          constructor
          · exact fun hx => Or.inl hx
          · rintro (hx | ⟨r2, hr2, ho2⟩)
            · exact hx
            · injection hr2 with hr2
              subst hr2
              rw [ho] at ho2
              cases ho2
      | some oid =>
          simp only [hr, ho, mem_addObject]
          constructor
          · rintro (hx | rfl)
            · exact Or.inl hx
            · exact Or.inr ⟨r, rfl, ho⟩
          · rintro (hx | ⟨r2, hr2, ho2⟩)
            · exact Or.inl hx
            · injection hr2 with hr2
              subst hr2
              rw [ho] at ho2
              injection ho2 with ho2
              exact Or.inr ho2.symm

/-- Witness for the amended C5 at a concrete thrown-exception response. -/
theorem evaluateOnCallFrame_thrown_surfaces_error_witness :
    (ExpressionEvaluationManager.evaluateOnCallFrame ⟨[]⟩ 1 "x+1" "debugger"
        none ⟨some ⟨some "obj1"⟩, true, some "TypeError"⟩).events =
      [IPCEvent.expressionEvaluationResponse (some ⟨some "obj1"⟩)
        (some "TypeError") "x+1" 1] ∧
    (ExpressionEvaluationManager.evaluateOnCallFrame ⟨[]⟩ 1 "x+1" "debugger"
        none ⟨some ⟨some "obj1"⟩, true, some "TypeError"⟩).thrown = none ∧
    ∀ x, x ∈ (ExpressionEvaluationManager.evaluateOnCallFrame ⟨[]⟩ 1 "x+1"
          "debugger" none
          ⟨some ⟨some "obj1"⟩, true, some "TypeError"⟩).manager.remoteObjects ↔
        (x ∈ (⟨[]⟩ : RemoteObjectManager).remoteObjects ∨
          ∃ r, (some (⟨some "obj1"⟩ : RemoteObject)) = some r ∧
            r.objectId = some x) :=
  evaluateOnCallFrame_thrown_surfaces_error ⟨[]⟩ 1 "x+1" "debugger"
    ⟨some ⟨some "obj1"⟩, true, some "TypeError"⟩ rfl

/-! ## DebuggerInstance (modules/nuclide-debugger-common/DebuggerInstance.js) -/

namespace DebuggerInstance

/-- The `DebuggerInstance` fields `sendNuclideMessage` reads: only
`_disposed` (the `_disposables` collection disposed alongside it plays no
role in this method). -/
structure InstanceState where
  disposed : Bool
  deriving DecidableEq, Repr

/-- What one `sendNuclideMessage` call does observably: logger error lines
and the messages handed to `_rpcService.sendCommand`. -/
structure SendNuclideMessageResult where
  loggedErrors : List String
  sentToRpcService : List String
  deriving DecidableEq, Repr

/-- `DebuggerInstance.sendNuclideMessage(message)`: when `_disposed` it logs
"sendNuclideMessage after dispose!" and returns; otherwise
`_handleChromeSocketMessage` awaits `preProcessClientMessage` (the identity,
`Promise.resolve(message)`, at this class) and forwards
`translateMessageToServer(processedMessage)` to `_rpcService.sendCommand`.
`translate` stands for `translateMessageToServer` from
`ChromeMessageRemoting` (not under src/), applied opaquely. -/
def sendNuclideMessage (translate : String → String) (st : InstanceState)
    (message : String) : SendNuclideMessageResult :=
  if st.disposed then
    { loggedErrors := ["sendNuclideMessage after dispose!"],
      sentToRpcService := [] }
  else
    { loggedErrors := [], sentToRpcService := [translate message] }

/-- `DebuggerInstance.dispose()`: sets `_disposed` and disposes
`_disposables`. -/
def dispose (st : InstanceState) : InstanceState :=
  { st with disposed := true }

end DebuggerInstance

/-- Claim C10: after `DebuggerInstance.dispose()` has run,
`sendNuclideMessage(message)` is a no-op for every message: it logs an error
and returns without forwarding anything to the underlying RPC service, so no
client message reaches the debuggee after disposal. -/
theorem sendNuclideMessage_after_dispose_is_noop
    (translate : String → String) (st : DebuggerInstance.InstanceState)
    (message : String) :
    DebuggerInstance.sendNuclideMessage translate
        (DebuggerInstance.dispose st) message =
      { loggedErrors := ["sendNuclideMessage after dispose!"],
        sentToRpcService := [] } := by
  rfl

/-! ## DebuggerHandler (pkg/nuclide-debugger-php-rpc/lib/PhpDebuggerService.js)

The dbgp/HHVM session handler.  Its `_breakpoints` field is a JS `Map` from
path to an array of `VsBreakpointpointDescriptor`s; JS `Map` get / set are
embedded as association-list lookup and first-occurrence update. -/

/-- JS `Map.get(key) || d`: the value at `key`, or the default. -/
def mapGetD {α : Type} (m : List (String × α)) (key : String) (d : α) : α :=
  match m with
  | [] => d
  | e :: rest => if e.1 = key then e.2 else mapGetD rest key d

/-- JS `Map.set(key, v)`: replace the value at an existing key in place,
else append the new entry. -/
def mapSet {α : Type} (m : List (String × α)) (key : String) (v : α) :
    List (String × α) :=
  match m with
  | [] => [(key, v)]
  | e :: rest => if e.1 = key then (key, v) :: rest else e :: mapSet rest key v

theorem mapGetD_mapSet {α : Type} (m : List (String × α)) (key : String)
    (v d : α) : mapGetD (mapSet m key v) key d = v := by
  induction m with
  | nil => simp [mapSet, mapGetD]
  | cons e rest ih =>
      by_cases h : e.1 = key
      · simp [mapSet, mapGetD, h]
      · simp [mapSet, mapGetD, h, ih]

namespace DebuggerHandler

/-- `DebugProtocol.SourceBreakpoint` as read by `setBreakpoints`:
`{line, condition?}`. -/
structure SourceBreakpoint where
  line : Nat
  condition : Option String
  deriving DecidableEq, Repr

/-- `DebugProtocol.Breakpoint` as built by `_setBreakpointFromDesciptior` and
mutated by `_resolveBreakpoint` / `_updateBreakpointHitCount`. -/
structure VsBreakpoint where
  verified : Bool
  line : Nat
  id : Nat
  nuclide_hitCount : Option Nat
  deriving DecidableEq, Repr

/-- `VsBreakpointpointDescriptor` (source spelling): `vsBpDeferred` resolves
to the protocol breakpoint once placement is confirmed; `vsBp` holds the
resolved value (`null` while pending). -/
structure VsBreakpointpointDescriptor where
  id : Nat
  path : String
  line : Nat
  condition : String
  vsBp : Option VsBreakpoint
  deriving DecidableEq, Repr

/-- Modelled from the spec: `setDifference(a, b, hash)` from
`nuclide-commons/collection` (the module is not under src/).  Per the spec's
diff description — "given existing set E and desired set D, compute E − D →
remove, D − E → add; elements compared by (path, line) identity" — it keeps
the elements of `a` whose key equals no element of `b`'s key;
`setBreakpoints` keys both sides by `v => v.line`. -/
def setDifference {α β : Type} (a : List α) (b : List β) (keyA : α → Nat)
    (keyB : β → Nat) : List α :=
  a.filter (fun x => ! b.any (fun y => keyB y == keyA x))

/-- The suspension / effect points executed by the breakpoint-removal path,
in program order. -/
inductive BpAction where
  | awaitDeferred (bpId : Nat)
  | remoteRemoveBreakpoint (bpId : Nat)
  deriving DecidableEq, Repr

/-- `DebuggerHandler._removeBreakpoint(bpDescriptior)` as the ordered trace
of its suspension points: first `await bpDescriptior.vsBpDeferred.promise`
(the descriptor may still be pending creation), then
`await this._connectionMultiplexer.removeBreakpoint(String(bpDescriptior.id))`. -/
def removeBreakpointTrace (bp : VsBreakpointpointDescriptor) : List BpAction :=
  [BpAction.awaitDeferred bp.id, BpAction.remoteRemoveBreakpoint bp.id]

/-- The handler state read and written by `setBreakpoints`:
`_breakpointId` (the id counter) and `_breakpoints` (path → descriptors). -/
structure HandlerState where
  breakpointId : Nat
  breakpoints : List (String × List VsBreakpointpointDescriptor)
  deriving DecidableEq, Repr

/-- The outcome of one `setBreakpoints(path, bpSources)` call: the updated
handler state, the `addBpDescriptors` and `toRemoveBpDesciptiors` sets the
diff computed, and the removal traces executed by
`Promise.all(toRemoveBpDesciptiors.map(this._removeBreakpoint))`
(one concurrent trace per removed descriptor, each internally ordered). -/
structure SetBreakpointsResult where
  state : HandlerState
  addBpDescriptors : List VsBreakpointpointDescriptor
  toRemoveBpDescriptors : List VsBreakpointpointDescriptor
  removalTraces : List (List BpAction)
  deriving DecidableEq, Repr

/-- The `.map(bpSrc => ({id: ++this._breakpointId, path, line: bpSrc.line,
condition: bpSrc.condition || '', vsBp: null, vsBpDeferred: new Deferred()}))`
step over the add set: fresh ids are drawn from the counter in iteration
order. -/
def makeAddDescriptors (breakpointId : Nat) (path : String)
    (srcs : List SourceBreakpoint) : List VsBreakpointpointDescriptor :=
  match srcs with
  | [] => []
  | s :: rest =>
      { id := breakpointId + 1, path := path, line := s.line,
        condition := s.condition.getD "", vsBp := none } ::
        makeAddDescriptors (breakpointId + 1) path rest

/-- `DebuggerHandler.setBreakpoints(path, bpSources)`: diff the desired
sources against the existing descriptors for `path` by line
(`setDifference(..., v => v.line)`), drop the descriptors whose id landed in
`toRemoveBpIds`, append the freshly created descriptors, store the new list,
and remove the stale descriptors via `_removeBreakpoint`. -/
def setBreakpoints (st : HandlerState) (path : String)
    (bpSources : List SourceBreakpoint) : SetBreakpointsResult :=
  let existingBreakpoints := mapGetD st.breakpoints path []
  let addSources := setDifference bpSources existingBreakpoints
    (fun s => s.line) (fun bp => bp.line)
  let addBpDescriptors := makeAddDescriptors st.breakpointId path addSources
  let toRemoveBpDescriptors := setDifference existingBreakpoints bpSources
    (fun bp => bp.line) (fun s => s.line)
  let toRemoveBpIds := toRemoveBpDescriptors.map (fun bp => bp.id)
  let newBreakpoints :=
    existingBreakpoints.filter (fun bp => ! toRemoveBpIds.contains bp.id)
      ++ addBpDescriptors
  { state :=
      { breakpointId := st.breakpointId + addSources.length,
        breakpoints := mapSet st.breakpoints path newBreakpoints },
    addBpDescriptors := addBpDescriptors,
    toRemoveBpDescriptors := toRemoveBpDescriptors,
    removalTraces := toRemoveBpDescriptors.map removeBreakpointTrace }

/-- In a trace, every remote remove of `bpId` is preceded by the await of
that same descriptor's pending resolution deferred. -/
def awaitPrecedesRemove (t : List BpAction) (bpId : Nat) : Prop :=
  ∀ j, t.get? j = some (BpAction.remoteRemoveBreakpoint bpId) →
    ∃ i, i < j ∧ t.get? i = some (BpAction.awaitDeferred bpId)

end DebuggerHandler

/-- Claim C3: for every descriptor being removed — directly through
`_removeBreakpoint`, or as part of the remove set of a `setBreakpoints`
diff, whose removals all run through `_removeBreakpoint` — the remote remove
call to the connection multiplexer is issued only after that descriptor's
`vsBpDeferred` has completed: in the removal trace the await strictly
precedes the remote remove, and the same holds of every trace spawned by a
`setBreakpoints` call for every breakpoint id. -/
theorem removeBreakpoint_awaits_pending_resolution
    (bp : DebuggerHandler.VsBreakpointpointDescriptor) :
    DebuggerHandler.awaitPrecedesRemove
        (DebuggerHandler.removeBreakpointTrace bp) bp.id ∧
    ∀ st path bpSources t,
      t ∈ (DebuggerHandler.setBreakpoints st path bpSources).removalTraces →
      ∀ bpId, DebuggerHandler.awaitPrecedesRemove t bpId := by
  have key : ∀ (bp2 : DebuggerHandler.VsBreakpointpointDescriptor) (bpId : Nat),
      DebuggerHandler.awaitPrecedesRemove
        (DebuggerHandler.removeBreakpointTrace bp2) bpId := by
    intro bp2 bpId j hj
    match j with
    | 0 => simp [DebuggerHandler.removeBreakpointTrace] at hj
    | 1 =>
        refine ⟨0, Nat.zero_lt_one, ?_⟩
        simp [DebuggerHandler.removeBreakpointTrace] at hj ⊢
        simpa [DebuggerHandler.removeBreakpointTrace] using hj
    | (n + 2) => simp [DebuggerHandler.removeBreakpointTrace] at hj
  refine ⟨key bp bp.id, ?_⟩
  intro st path bpSources t ht bpId
  simp only [DebuggerHandler.setBreakpoints, List.mem_map] at ht
  obtain ⟨bp2, _, rfl⟩ := ht
  exact key bp2 bpId

/-- Witness for C3: a state holding one pending descriptor at (a.php, 5);
syncing the empty source list removes it, and its removal trace awaits the
deferred before the remote remove (also checked for that descriptor's own
id through the first conjunct). -/
theorem removeBreakpoint_awaits_pending_resolution_witness :
    DebuggerHandler.awaitPrecedesRemove
      (DebuggerHandler.removeBreakpointTrace ⟨1, "a.php", 5, "", none⟩) 1 ∧
    DebuggerHandler.awaitPrecedesRemove
      (DebuggerHandler.removeBreakpointTrace ⟨1, "a.php", 5, "", none⟩) 3 :=
  ⟨(removeBreakpoint_awaits_pending_resolution ⟨1, "a.php", 5, "", none⟩).1,
   (removeBreakpoint_awaits_pending_resolution ⟨1, "a.php", 5, "", none⟩).2
     ⟨1, [("a.php", [⟨1, "a.php", 5, "", none⟩])]⟩ "a.php" []
     (DebuggerHandler.removeBreakpointTrace ⟨1, "a.php", 5, "", none⟩)
     (by decide) 3⟩

theorem mem_setDifference {α β : Type} {a : List α} {b : List β}
    {kA : α → Nat} {kB : β → Nat} {x : α} :
    x ∈ DebuggerHandler.setDifference a b kA kB ↔
      x ∈ a ∧ ∀ y ∈ b, kB y ≠ kA x := by
  simp [DebuggerHandler.setDifference, List.mem_filter, List.any_eq_true]

theorem setDifference_eq_nil {α β : Type} {a : List α} {b : List β}
    {kA : α → Nat} {kB : β → Nat} :
    DebuggerHandler.setDifference a b kA kB = [] ↔
      ∀ x ∈ a, ∃ y ∈ b, kB y = kA x := by
  simp [DebuggerHandler.setDifference, List.filter_eq_nil_iff, List.any_eq_true]

theorem makeAddDescriptors_map_line (path : String)
    (srcs : List DebuggerHandler.SourceBreakpoint) :
    ∀ k, (DebuggerHandler.makeAddDescriptors k path srcs).map
        (fun bp => bp.line) = srcs.map (fun s => s.line) := by
  induction srcs with
  | nil => intro k; rfl
  | cons s rest ih => intro k; simp [DebuggerHandler.makeAddDescriptors, ih]

/-- The lines present among the descriptors stored by a `setBreakpoints`
call are exactly the lines of the requested sources, provided the existing
descriptors carry pairwise distinct ids (an invariant of reachable states:
every id is drawn fresh from `++this._breakpointId`). -/
theorem setBreakpoints_new_lines
    (E : List DebuggerHandler.VsBreakpointpointDescriptor)
    (S : List DebuggerHandler.SourceBreakpoint) (k : Nat) (path : String)
    (newBps : List DebuggerHandler.VsBreakpointpointDescriptor)
    (hnew : newBps =
      E.filter (fun bp =>
        ! ((DebuggerHandler.setDifference E S (fun bp => bp.line)
            (fun s => s.line)).map (fun bp => bp.id)).contains bp.id)
      ++ DebuggerHandler.makeAddDescriptors k path
          (DebuggerHandler.setDifference S E (fun s => s.line)
            (fun bp => bp.line)))
    (h : (E.map (fun bp => bp.id)).Nodup) (n : Nat) :
    (∃ bp ∈ newBps, bp.line = n) ↔ (∃ s ∈ S, s.line = n) := by
  subst hnew
  constructor
  · rintro ⟨bp, hbp, rfl⟩
    rcases List.mem_append.1 hbp with hf | ha
    · obtain ⟨hbpE, hc⟩ := List.mem_filter.1 hf
      by_contra hno
      push_neg at hno
      have hbpRem : bp ∈ DebuggerHandler.setDifference E S
          (fun bp => bp.line) (fun s => s.line) :=
        mem_setDifference.2 ⟨hbpE, fun s hs => hno s hs⟩
      have hid : bp.id ∈ (DebuggerHandler.setDifference E S
          (fun bp => bp.line) (fun s => s.line)).map (fun bp => bp.id) :=
        List.mem_map_of_mem _ hbpRem
      simp only [List.contains, List.elem_eq_mem, Bool.not_eq_true',
        decide_eq_false_iff_not] at hc
      exact hc hid
    · have hline : bp.line ∈ (DebuggerHandler.makeAddDescriptors k path
          (DebuggerHandler.setDifference S E (fun s => s.line)
            (fun bp => bp.line))).map (fun bp => bp.line) :=
        List.mem_map_of_mem _ ha
      rw [makeAddDescriptors_map_line] at hline
      obtain ⟨s, hsAdd, hsl⟩ := List.mem_map.1 hline
      exact ⟨s, (mem_setDifference.1 hsAdd).1, hsl⟩
  · rintro ⟨s, hsS, rfl⟩
    by_cases hcase : ∃ bp ∈ E, bp.line = s.line
    · obtain ⟨bp, hbpE, hl⟩ := hcase
      refine ⟨bp, List.mem_append.2 (Or.inl (List.mem_filter.2
        ⟨hbpE, ?_⟩)), hl⟩
      simp only [List.contains, List.elem_eq_mem, Bool.not_eq_true',
        decide_eq_false_iff_not]
      intro hid
      obtain ⟨bp2, hbp2, hbp2id⟩ := List.mem_map.1 hid
      have hbp2E := (mem_setDifference.1 hbp2).1
      have hPick := (mem_setDifference.1 hbp2).2 s hsS
      have : bp2 = bp := List.inj_on_of_nodup_map h hbp2E hbpE hbp2id
      subst this
      exact hPick (hl ▸ rfl)
    · push_neg at hcase
      have hsAdd : s ∈ DebuggerHandler.setDifference S E
          (fun s => s.line) (fun bp => bp.line) :=
        mem_setDifference.2 ⟨hsS, fun bp hbp => hcase bp hbp⟩
      have hline : s.line ∈ (DebuggerHandler.setDifference S E
          (fun s => s.line) (fun bp => bp.line)).map (fun s => s.line) :=
        List.mem_map_of_mem _ hsAdd
      rw [← makeAddDescriptors_map_line path _ k] at hline
      obtain ⟨bp, hbpAdd, hbl⟩ := List.mem_map.1 hline
      exact ⟨bp, List.mem_append.2 (Or.inr hbpAdd), hbl⟩

/-- Claim C2: the breakpoint sync operation is idempotent: for every path
and every source list S, calling `setBreakpoints(path, S)` again immediately
after a first call with the same S computes an empty add set and an empty
remove set — no descriptor is created or removed on the second call —
because the diff compares existing and desired breakpoints by line identity.
The hypothesis (the path's existing descriptors carry pairwise distinct ids)
is an invariant of reachable states, where every id is drawn fresh from the
`++this._breakpointId` counter. -/
theorem setBreakpoints_idempotent
    (st : DebuggerHandler.HandlerState) (path : String)
    (S : List DebuggerHandler.SourceBreakpoint)
    (h : ((mapGetD st.breakpoints path []).map (fun bp => bp.id)).Nodup) :
    (DebuggerHandler.setBreakpoints
      (DebuggerHandler.setBreakpoints st path S).state path S).addBpDescriptors
        = [] ∧
    (DebuggerHandler.setBreakpoints
      (DebuggerHandler.setBreakpoints st path S).state path S).toRemoveBpDescriptors
        = [] := by
  have e1eq : mapGetD
      (DebuggerHandler.setBreakpoints st path S).state.breakpoints path [] =
      (mapGetD st.breakpoints path []).filter (fun bp =>
        ! ((DebuggerHandler.setDifference (mapGetD st.breakpoints path []) S
            (fun bp => bp.line) (fun s => s.line)).map
          (fun bp => bp.id)).contains bp.id)
      ++ DebuggerHandler.makeAddDescriptors st.breakpointId path
          (DebuggerHandler.setDifference S (mapGetD st.breakpoints path [])
            (fun s => s.line) (fun bp => bp.line)) := by
    simp [DebuggerHandler.setBreakpoints, mapGetD_mapSet]
  have hlines2 : ∀ n, (∃ bp ∈ mapGetD
      (DebuggerHandler.setBreakpoints st path S).state.breakpoints path [],
        bp.line = n) ↔ (∃ s ∈ S, s.line = n) := by
    intro n
    rw [e1eq]
    exact setBreakpoints_new_lines _ S st.breakpointId path _ rfl h n
  have hAdd2 : DebuggerHandler.setDifference S
      (mapGetD (DebuggerHandler.setBreakpoints st path S).state.breakpoints
        path []) (fun s => s.line) (fun bp => bp.line) = [] := by
    refine setDifference_eq_nil.2 (fun s hs => ?_)
    exact (hlines2 s.line).2 ⟨s, hs, rfl⟩
  have hRem2 : DebuggerHandler.setDifference
      (mapGetD (DebuggerHandler.setBreakpoints st path S).state.breakpoints
        path []) S (fun bp => bp.line) (fun s => s.line) = [] := by
    refine setDifference_eq_nil.2 (fun bp hbp => ?_)
    exact (hlines2 bp.line).1 ⟨bp, hbp, rfl⟩
  constructor
  · show DebuggerHandler.makeAddDescriptors _ path
      (DebuggerHandler.setDifference S
        (mapGetD (DebuggerHandler.setBreakpoints st path S).state.breakpoints
          path []) (fun s => s.line) (fun bp => bp.line)) = []
    rw [hAdd2]
    rfl
  · show DebuggerHandler.setDifference
      (mapGetD (DebuggerHandler.setBreakpoints st path S).state.breakpoints
        path []) S (fun bp => bp.line) (fun s => s.line) = []
    exact hRem2

/-- Witness for C2: sync `[line 5]` twice against an initially empty state. -/
theorem setBreakpoints_idempotent_witness :
    (DebuggerHandler.setBreakpoints
      (DebuggerHandler.setBreakpoints ⟨0, []⟩ "a.php"
        [⟨5, none⟩]).state "a.php" [⟨5, none⟩]).addBpDescriptors = [] ∧
    (DebuggerHandler.setBreakpoints
      (DebuggerHandler.setBreakpoints ⟨0, []⟩ "a.php"
        [⟨5, none⟩]).state "a.php" [⟨5, none⟩]).toRemoveBpDescriptors = [] :=
  setBreakpoints_idempotent ⟨0, []⟩ "a.php" [⟨5, none⟩] (by decide)

/-! ### Hit-count bookkeeping (`_updateBreakpointHitCount`) -/

namespace DebuggerHandler

/-- Modelled from the spec: the `BREAKPOINT` stop-reason constant exported by
`Connection.js` (not under src/); its exact wire string is immaterial to the
proofs, which only compare against it. -/
def BREAKPOINT : String := "breakpoint"

/-- Modelled from the spec: the slice of a `Connection` (Connection.js is not
under src/) read by `_updateBreakpointHitCount` — `getStopReason()` and
`getStopBreakpointLocation()` return the connection's last stop reason and
the `{filename, lineNumber}` of the breakpoint it stopped at, held here as
data. -/
structure Connection where
  stopReason : String
  stopBreakpointLocation : Option (String × Nat)
  deriving DecidableEq, Repr

/-- Modelled from the spec: a breakpoint record of the `BreakpointStore`
(BreakpointStore.js is not under src/) per the spec's breakpoint descriptor
`{id, path, line, ..., hitCount}`; `chromeId` is the handler-assigned id the
store was keyed with (`String(bpDescriptior.id)`, kept numeric here since
`Number(hhBp.chromeId)` round-trips it). -/
structure HhBreakpoint where
  chromeId : Nat
  filename : String
  lineNumber : Nat
  resolved : Bool
  hitCount : Nat
  deriving DecidableEq, Repr

/-- Modelled from the spec: `BreakpointStore.findBreakpoint(filename,
lineNumber)` (BreakpointStore.js is not under src/), which "resolves
breakpoints against (path, line)": the store's first breakpoint registered at
that location. -/
def findBreakpoint (store : List HhBreakpoint) (filename : String)
    (lineNumber : Nat) : Option HhBreakpoint :=
  store.find? (fun b => b.filename == filename && b.lineNumber == lineNumber)

/-- `hhBp.hitCount++` mutates the store's record returned by
`findBreakpoint`: the store with its first breakpoint at the location
incremented. -/
def bumpHitCount (store : List HhBreakpoint) (filename : String)
    (lineNumber : Nat) : List HhBreakpoint :=
  match store with
  | [] => []
  | b :: rest =>
      if b.filename == filename && b.lineNumber == lineNumber then
        { b with hitCount := b.hitCount + 1 } :: rest
      else b :: bumpHitCount rest filename lineNumber

/-- Position of the first store breakpoint at (filename, lineNumber) — the
record `findBreakpoint` returns and `bumpHitCount` increments. -/
def firstMatchIdx (store : List HhBreakpoint) (filename : String)
    (lineNumber : Nat) : Option Nat :=
  match store with
  | [] => none
  | b :: rest =>
      if b.filename == filename && b.lineNumber == lineNumber then some 0
      else (firstMatchIdx rest filename lineNumber).map (fun i => i + 1)

/-- `DebuggerHandler._getBreakpointById(bpId)`: flatten the per-path
descriptor arrays, find the descriptor with the id, and return its `vsBp`
(`null` while unresolved). -/
def getBreakpointById
    (breakpoints : List (String × List VsBreakpointpointDescriptor))
    (bpId : Nat) : Option VsBreakpoint :=
  match ((breakpoints.map (fun e => e.2)).flatten).find?
      (fun bp => bp.id == bpId) with
  | none => none
  | some d => d.vsBp

/-- The events the handler pushes through `_eventSender`. -/
inductive HandlerEvent where
  | outputEvent (message : String) (level : String)
  | stoppedEvent (reason : String) (threadId : Nat)
  | terminatedEvent
  | breakpointUpdateEvent (bp : VsBreakpoint)
  | evaluationResponse
  | propertiesResponse
  deriving DecidableEq, Repr

/-- `DebuggerHandler._updateBreakpointHitCount()`: returns the breakpoint
store after the call together with the events sent.  The first guard in the
source, `if (this._connectionMultiplexer.getEnabledConnection == null)`,
tests the method reference itself (which always exists), so it never
returns there and is not represented.  The call then returns early unless
the enabled connection exists, stopped for `BREAKPOINT`, has a stop
location, and the store knows a breakpoint there; in that case that
breakpoint's `hitCount` is incremented, and a `BreakpointEvent('update')`
is sent only when the handler also finds a resolved protocol breakpoint
(`vsBp`) for the store record's `chromeId`. -/
def updateBreakpointHitCount (enabledConnection : Option Connection)
    (store : List HhBreakpoint)
    (breakpoints : List (String × List VsBreakpointpointDescriptor)) :
    List HhBreakpoint × List HandlerEvent :=
  match enabledConnection with
  | none => (store, [])
  | some conn =>
      if conn.stopReason = BREAKPOINT then
        match conn.stopBreakpointLocation with
        | none => (store, [])
        | some (filename, lineNumber) =>
            match findBreakpoint store filename lineNumber with
            | none => (store, [])
            | some hhBp =>
                let store2 := bumpHitCount store filename lineNumber
                match getBreakpointById breakpoints hhBp.chromeId with
                | none => (store2, [])
                | some vsBp =>
                    (store2,
                      [HandlerEvent.breakpointUpdateEvent
                        { vsBp with
                          nuclide_hitCount := some (hhBp.hitCount + 1) }])
      else (store, [])

end DebuggerHandler

theorem bumpHitCount_get_of_ne_firstMatch
    (store : List DebuggerHandler.HhBreakpoint) (filename : String)
    (lineNumber : Nat) :
    ∀ i, DebuggerHandler.firstMatchIdx store filename lineNumber ≠ some i →
      (DebuggerHandler.bumpHitCount store filename lineNumber).get? i =
        store.get? i := by
  induction store with
  | nil => intro i _; rfl
  | cons b rest ih =>
      intro i hi
      by_cases hb : (b.filename == filename && b.lineNumber == lineNumber)
        = true
      · match i with
        | 0 =>
            exact absurd (by simp [DebuggerHandler.firstMatchIdx, hb]) hi
        | j + 1 =>
            simp [DebuggerHandler.bumpHitCount, hb]
      · match i with
        | 0 => simp [DebuggerHandler.bumpHitCount, hb]
        | j + 1 =>
            have hj : DebuggerHandler.firstMatchIdx rest filename lineNumber
                ≠ some j := by
              intro hjeq
              exact hi (by simp [DebuggerHandler.firstMatchIdx, hb, hjeq])
            simp only [DebuggerHandler.bumpHitCount, hb, if_false,
              Bool.false_eq_true, List.get?_cons_succ]
            exact ih j hj

theorem bumpHitCount_get_of_firstMatch
    (store : List DebuggerHandler.HhBreakpoint) (filename : String)
    (lineNumber : Nat) :
    ∀ i b, DebuggerHandler.firstMatchIdx store filename lineNumber = some i →
      store.get? i = some b →
      (DebuggerHandler.bumpHitCount store filename lineNumber).get? i =
        some { b with hitCount := b.hitCount + 1 } := by
  induction store with
  | nil => intro i b h; simp [DebuggerHandler.firstMatchIdx] at h
  | cons hd rest ih =>
      intro i b hidx hget
      by_cases hb : (hd.filename == filename && hd.lineNumber == lineNumber)
        = true
      · have : i = 0 := by
          simp [DebuggerHandler.firstMatchIdx, hb] at hidx
          exact hidx.symm
        subst this
        simp only [List.get?_cons_zero, Option.some.injEq] at hget
        subst hget
        simp [DebuggerHandler.bumpHitCount, hb]
      · match i with
        | 0 =>
            simp [DebuggerHandler.firstMatchIdx, hb] at hidx
        | j + 1 =>
            have hj : DebuggerHandler.firstMatchIdx rest filename lineNumber
                = some j := by
              simp only [DebuggerHandler.firstMatchIdx, hb, if_false,
                Bool.false_eq_true, Option.map_eq_some'] at hidx
              obtain ⟨i2, hi2, hi2eq⟩ := hidx
              have : i2 = j := by omega
              subst this
              exact hi2
            simp only [DebuggerHandler.bumpHitCount, hb, if_false,
              Bool.false_eq_true, List.get?_cons_succ]
            exact ih j b hj (by simpa using hget)

theorem findBreakpoint_eq_none_iff
    (store : List DebuggerHandler.HhBreakpoint) (filename : String)
    (lineNumber : Nat) :
    DebuggerHandler.findBreakpoint store filename lineNumber = none ↔
      DebuggerHandler.firstMatchIdx store filename lineNumber = none := by
  induction store with
  | nil => simp [DebuggerHandler.findBreakpoint, DebuggerHandler.firstMatchIdx]
  | cons b rest ih =>
      by_cases hb : (b.filename == filename && b.lineNumber == lineNumber)
        = true
      · simp [DebuggerHandler.findBreakpoint, DebuggerHandler.firstMatchIdx,
          List.find?_cons_of_pos, hb]
      · simp only [DebuggerHandler.findBreakpoint] at ih
        simp [DebuggerHandler.findBreakpoint, DebuggerHandler.firstMatchIdx,
          List.find?_cons_of_neg, hb, ih, Option.map_eq_none']

/-- Claim C9: hit-count bookkeeping updates only when the currently enabled
connection's last stop reason is `BREAKPOINT`.  First conjunct: for every
pause whose enabled connection is absent, stopped for another reason (e.g. a
step stop), or has no stop location, no breakpoint's `hitCount` changes and
no breakpoint-update event is emitted.  Second conjunct: when it did stop on
a breakpoint at (filename, lineNumber), every store breakpoint other than
the first one registered at that location is unchanged, and that one has its
`hitCount` incremented by exactly one. -/
theorem updateBreakpointHitCount_only_on_breakpoint_stop
    (conn : Option DebuggerHandler.Connection)
    (store : List DebuggerHandler.HhBreakpoint)
    (bps : List (String × List DebuggerHandler.VsBreakpointpointDescriptor)) :
    ((∀ c, conn = some c → c.stopReason ≠ DebuggerHandler.BREAKPOINT ∨
        c.stopBreakpointLocation = none) →
      DebuggerHandler.updateBreakpointHitCount conn store bps = (store, [])) ∧
    (∀ c filename lineNumber, conn = some c →
      c.stopReason = DebuggerHandler.BREAKPOINT →
      c.stopBreakpointLocation = some (filename, lineNumber) →
      (∀ i, DebuggerHandler.firstMatchIdx store filename lineNumber ≠ some i →
        (DebuggerHandler.updateBreakpointHitCount conn store bps).1.get? i =
          store.get? i) ∧
      (∀ i b, DebuggerHandler.firstMatchIdx store filename lineNumber = some i →
        store.get? i = some b →
        (DebuggerHandler.updateBreakpointHitCount conn store bps).1.get? i =
          some { b with hitCount := b.hitCount + 1 })) := by
  constructor
  · intro hspur
    match conn with
    | none => rfl
    | some c =>
        rcases hspur c rfl with hr | hl
        · simp [DebuggerHandler.updateBreakpointHitCount, hr]
        · by_cases hreason : c.stopReason = DebuggerHandler.BREAKPOINT
          · simp [DebuggerHandler.updateBreakpointHitCount, hreason, hl]
          · simp [DebuggerHandler.updateBreakpointHitCount, hreason]
  · intro c filename lineNumber hc hreason hloc
    subst hc
    constructor
    · intro i hi
      cases hf : DebuggerHandler.findBreakpoint store filename lineNumber with
      | none =>
          simp [DebuggerHandler.updateBreakpointHitCount, hreason, hloc, hf]
      | some hhBp =>
          cases hg : DebuggerHandler.getBreakpointById bps hhBp.chromeId with
          | none =>
              simpa [DebuggerHandler.updateBreakpointHitCount, hreason, hloc,
                hf, hg] using
                bumpHitCount_get_of_ne_firstMatch store filename lineNumber i hi
          | some vsBp =>
              simpa [DebuggerHandler.updateBreakpointHitCount, hreason, hloc,
                hf, hg] using
                bumpHitCount_get_of_ne_firstMatch store filename lineNumber i hi
    · intro i b hidx hget
      cases hf : DebuggerHandler.findBreakpoint store filename lineNumber with
      | none =>
          rw [(findBreakpoint_eq_none_iff store filename lineNumber).1 hf]
            at hidx
          cases hidx
      | some hhBp =>
          cases hg : DebuggerHandler.getBreakpointById bps hhBp.chromeId with
          | none =>
              simpa [DebuggerHandler.updateBreakpointHitCount, hreason, hloc,
                hf, hg] using
                bumpHitCount_get_of_firstMatch store filename lineNumber i b
                  hidx hget
          | some vsBp =>
              simpa [DebuggerHandler.updateBreakpointHitCount, hreason, hloc,
                hf, hg] using
                bumpHitCount_get_of_firstMatch store filename lineNumber i b
                  hidx hget

/-- Witness for C9: a step stop leaves the one-breakpoint store untouched
with no event; a breakpoint stop at (a.php, 5) increments exactly that
breakpoint's count from 0 to 1. -/
theorem updateBreakpointHitCount_only_on_breakpoint_stop_witness :
    DebuggerHandler.updateBreakpointHitCount (some ⟨"step", none⟩)
      [⟨1, "a.php", 5, false, 0⟩] [] = ([⟨1, "a.php", 5, false, 0⟩], []) ∧
    (DebuggerHandler.updateBreakpointHitCount
        (some ⟨DebuggerHandler.BREAKPOINT, some ("a.php", 5)⟩)
        [⟨1, "a.php", 5, false, 0⟩] []).1.get? 0 =
      some { chromeId := 1, filename := "a.php", lineNumber := 5,
             resolved := false, hitCount := 0 + 1 } :=
  ⟨(updateBreakpointHitCount_only_on_breakpoint_stop (some ⟨"step", none⟩)
      [⟨1, "a.php", 5, false, 0⟩] []).1
      (fun c hc => by
        injection hc with hc
        subst hc
        exact Or.inl (by decide)),
   ((updateBreakpointHitCount_only_on_breakpoint_stop
      (some ⟨DebuggerHandler.BREAKPOINT, some ("a.php", 5)⟩)
      [⟨1, "a.php", 5, false, 0⟩] []).2
      ⟨DebuggerHandler.BREAKPOINT, some ("a.php", 5)⟩ "a.php" 5 rfl rfl
      rfl).2 0 ⟨1, "a.php", 5, false, 0⟩ (by decide) rfl⟩

/-! ### Session end (`_onStatusChanged` / `_endSession`) and the closed
session

`_endSession` sends a `TerminatedEvent` and disposes `_subscriptions`, which
holds (and therefore disposes) the `ConnectionMultiplexer` itself.  The
handler's command methods delegate to the multiplexer unconditionally; what
a disposed multiplexer does with those requests is code not under src/ and
is modelled from the spec below. -/

namespace DebuggerHandler

/-- Modelled from the spec: the continuation-command constants
`COMMAND_STEP_OVER` / `COMMAND_STEP_INTO` / `COMMAND_STEP_OUT` exported by
`DbgpSocket.js` (not under src/); their exact wire strings are immaterial
here. -/
def COMMAND_STEP_OVER : String := "step_over"

/-- Modelled from the spec: see `COMMAND_STEP_OVER`. -/
def COMMAND_STEP_INTO : String := "step_into"

/-- Modelled from the spec: see `COMMAND_STEP_OVER`. -/
def COMMAND_STEP_OUT : String := "step_out"

/-- The `ConnectionMultiplexerStatus` values dispatched on by
`_onStatusChanged`: the two paused statuses, `End`, and a default bucket for
any other status string (which only logs a warning). -/
inductive MuxStatus where
  | allConnectionsPaused
  | singleConnectionPaused
  | sessionEnd
  | other (status : String)
  deriving DecidableEq, Repr

/-- The session-level handler state the claims read: whether
`_subscriptions` (which contains the `ConnectionMultiplexer`) has been
disposed, whether the first continuation command was seen (`resume` swallows
it), and the breakpoint bookkeeping state. -/
structure SessionState where
  subscriptionsDisposed : Bool
  hadFirstContinuationCommand : Bool
  handler : HandlerState
  deriving DecidableEq, Repr

/-- The multiplexer-held data `_onStatusChanged` and `_sendPausedMessage`
read: the enabled connection (and its id) and the pending request-switch
message, plus the breakpoint store. -/
structure MuxView where
  enabledConnection : Option Connection
  enabledConnectionId : Option Nat
  requestSwitchMessage : Option String
  store : List HhBreakpoint
  deriving DecidableEq, Repr

/-- Result of one `_onStatusChanged` invocation: handler state after it, the
breakpoint store after it, the events sent, and a thrown JS error if any. -/
structure StatusChangeResult where
  state : SessionState
  store : List HhBreakpoint
  events : List HandlerEvent
  thrown : Option String
  deriving DecidableEq, Repr

/-- `DebuggerHandler._endSession()`: send a `TerminatedEvent`, then dispose
`_subscriptions` (which disposes the multiplexer held inside it). -/
def endSession (st : SessionState) : SessionState × List HandlerEvent :=
  ({ st with subscriptionsDisposed := true }, [HandlerEvent.terminatedEvent])

/-- `DebuggerHandler._sendPausedMessage()`: emit the pending request-switch
message (if any) as info output, then a `StoppedEvent('breakpoint', id)` for
the enabled connection — or throw when no connection is enabled. -/
def sendPausedMessage (mux : MuxView) : List HandlerEvent × Option String :=
  let switchEvents := match mux.requestSwitchMessage with
    | some msg => [HandlerEvent.outputEvent msg "info"]
    | none => []
  match mux.enabledConnectionId with
  | none => (switchEvents, some "No active hhvm connection to pause!")
  | some cid =>
      (switchEvents ++ [HandlerEvent.stoppedEvent "breakpoint" cid], none)

/-- `DebuggerHandler._onStatusChanged(status)`: the paused statuses update
the hit count and send the paused message; `End` runs `_endSession`; any
other status only logs a warning. -/
def onStatusChanged (st : SessionState) (mux : MuxView) (status : MuxStatus) :
    StatusChangeResult :=
  match status with
  | MuxStatus.allConnectionsPaused | MuxStatus.singleConnectionPaused =>
      let bump := updateBreakpointHitCount mux.enabledConnection mux.store
        st.handler.breakpoints
      let paused := sendPausedMessage mux
      { state := st, store := bump.1, events := bump.2 ++ paused.1,
        thrown := paused.2 }
  | MuxStatus.sessionEnd =>
      let e := endSession st
      { state := e.1, store := mux.store, events := e.2, thrown := none }
  | MuxStatus.other _ =>
      { state := st, store := mux.store, events := [], thrown := none }

/-- The requests the handler's command methods place on the
`ConnectionMultiplexer` (one constructor per `this._connectionMultiplexer.<m>`
call site reachable from a command). -/
inductive MuxRequest where
  | muxPause
  | muxResume
  | sendContinuationCommand (cmd : String)
  | removeBreakpoint (bpId : Nat)
  | setFileLineBreakpoint (bpId : Nat) (path : String) (line : Nat)
      (condition : String)
  | getConnectionStackFrames (threadId : Nat)
  | getScopesForFrame (frameIndex : Nat)
  | getProperties (objectId : String)
  | runtimeEvaluate (expr : String)
  | evaluateOnCallFrame (frameId : Nat) (expr : String)
  deriving DecidableEq, Repr

/-- The commands issued to the handler after translation by the VS debug
session translator.  `getPropertiesCmd` and `setVariableCmd` carry the
`DebugVariable` their `variablesReference` resolves to in
`_variableHandles`; `evaluateCmd` carries the optional frame id. -/
inductive HandlerCommand where
  | pauseCmd
  | resumeCmd
  | stepOverCmd
  | stepIntoCmd
  | stepOutCmd
  | getStackFramesCmd (threadId : Nat)
  | getScopesForFrameCmd (frameIndex : Nat)
  | getPropertiesCmd (objectId : Option String)
  | evaluateCmd (expr : String) (frameId : Option Nat)
  | setBreakpointsCmd (path : String) (bpSources : List SourceBreakpoint)
  deriving DecidableEq, Repr

/-- The multiplexer requests each handler command places, read off the
handler methods: `pause`/`resume` delegate directly (`resume` swallows the
first continuation command), the steps send continuation commands,
`getProperties` returns `[]` without a request when the variable has no
object id, `evaluate` picks `runtimeEvaluate` or `evaluateOnCallFrame` by
frame id, and `setBreakpoints` removes its diff's stale descriptors and
creates the new ones through the breakpoint store. -/
def commandMuxRequests (st : SessionState) (cmd : HandlerCommand) :
    List MuxRequest :=
  match cmd with
  | HandlerCommand.pauseCmd => [MuxRequest.muxPause]
  | HandlerCommand.resumeCmd =>
      if st.hadFirstContinuationCommand then [MuxRequest.muxResume] else []
  | HandlerCommand.stepOverCmd =>
      [MuxRequest.sendContinuationCommand COMMAND_STEP_OVER]
  | HandlerCommand.stepIntoCmd =>
      [MuxRequest.sendContinuationCommand COMMAND_STEP_INTO]
  | HandlerCommand.stepOutCmd =>
      [MuxRequest.sendContinuationCommand COMMAND_STEP_OUT]
  | HandlerCommand.getStackFramesCmd threadId =>
      [MuxRequest.getConnectionStackFrames threadId]
  | HandlerCommand.getScopesForFrameCmd frameIndex =>
      [MuxRequest.getScopesForFrame frameIndex]
  | HandlerCommand.getPropertiesCmd objectId =>
      match objectId with
      | none => []
      | some oid => [MuxRequest.getProperties oid]
  | HandlerCommand.evaluateCmd expr frameId =>
      match frameId with
      | none => [MuxRequest.runtimeEvaluate expr]
      | some fid => [MuxRequest.evaluateOnCallFrame fid expr]
  | HandlerCommand.setBreakpointsCmd path bpSources =>
      let r := setBreakpoints st.handler path bpSources
      r.toRemoveBpDescriptors.map (fun bp => MuxRequest.removeBreakpoint bp.id)
        ++ r.addBpDescriptors.map (fun bp =>
            MuxRequest.setFileLineBreakpoint bp.id bp.path bp.line bp.condition)

/-- Modelled from the spec: the `ConnectionMultiplexer`
(ConnectionMultiplexer.js is not under src/) is disposed together with
`_subscriptions`; per the spec, once the session is closed "no further
outbound protocol calls are attempted" — the handler "must not attempt to
deliver protocol calls to a closed connection (reject/no-op)" — so a
disposed multiplexer delivers none of the requests placed on it. -/
def commandOutboundCalls (st : SessionState) (cmd : HandlerCommand) :
    List MuxRequest :=
  if st.subscriptionsDisposed then [] else commandMuxRequests st cmd

/-- Which requests produce an evaluation or property response for the
client when they complete. -/
def responseEventsFor (req : MuxRequest) : List HandlerEvent :=
  match req with
  | MuxRequest.getProperties _ => [HandlerEvent.propertiesResponse]
  | MuxRequest.runtimeEvaluate _ => [HandlerEvent.evaluationResponse]
  | MuxRequest.evaluateOnCallFrame _ _ => [HandlerEvent.evaluationResponse]
  | _ => []

/-- The evaluation / property responses the handler emits for a command:
derived from the requests the (possibly disposed) multiplexer actually
delivers, since the handler builds those responses from the multiplexer's
results. -/
def commandResponseEvents (st : SessionState) (cmd : HandlerCommand) :
    List HandlerEvent :=
  ((commandOutboundCalls st cmd).map responseEventsFor).flatten

end DebuggerHandler

/-- Claim C1: receiving the `End` status notification is terminal: the
handler emits a terminated event and disposes all of its subscriptions
(including the connection multiplexer held in them), and in the resulting
closed session no outbound protocol call is attempted and no evaluation or
property response event is emitted, for any command issued after the `End`
notification. -/
theorem end_notification_is_terminal (st : DebuggerHandler.SessionState)
    (mux : DebuggerHandler.MuxView) (cmd : DebuggerHandler.HandlerCommand) :
    DebuggerHandler.HandlerEvent.terminatedEvent ∈
      (DebuggerHandler.onStatusChanged st mux
        DebuggerHandler.MuxStatus.sessionEnd).events ∧
    (DebuggerHandler.onStatusChanged st mux
      DebuggerHandler.MuxStatus.sessionEnd).state.subscriptionsDisposed
      = true ∧
    DebuggerHandler.commandOutboundCalls
      (DebuggerHandler.onStatusChanged st mux
        DebuggerHandler.MuxStatus.sessionEnd).state cmd = [] ∧
    DebuggerHandler.commandResponseEvents
      (DebuggerHandler.onStatusChanged st mux
        DebuggerHandler.MuxStatus.sessionEnd).state cmd = [] := by
  refine ⟨?_, rfl, rfl, rfl⟩
  simp [DebuggerHandler.onStatusChanged, DebuggerHandler.endSession]

end Nuclide
